import Mathlib

/-!
Shallow embedding of matminer/learners/volume_prediction.py and proofs about it.

Modelling conventions:
* Python floats are idealised as real numbers.
* The geometric neighbour search (pymatgen VoronoiCoordFinder inside
  get_bondlengths, and Structure.get_neighbors) is an external collaborator;
  it enters the embedding as an abstract function parameter.  A structure
  handled by VolumePredictor.predict is mutated only through scale_lattice,
  which performs isotropic volume scaling with fractional coordinates
  preserved, so the mutable state of the structure is represented by its
  current volume.
* Python dynamic typing matters in VolumePredictor.fit: line 97 appends the
  whole minbond_details namedtuple (not its min_dist field) as
  min_bond_length, and line 101 then evaluates total += item.min_bond_length
  with total an int.  We model the dynamically typed cell by PyVal and the
  Python + operator by pyAdd, which raises TypeError on int + namedtuple.
* Fallible Python code (raise / library errors) is modelled with Except.
-/

namespace VolPred

/-- The minbond_details namedtuple of get_bondlengths: minimum bond distance
and number of bonds of one bond type in one structure. -/
structure minbond_details where
  min_dist : ℝ
  no_of_bonds : ℕ

/-- Output of get_bondlengths: a dict from bond type (a string such as A-B)
to its minbond_details, modelled as an insertion-ordered association list. -/
abbrev Minbls := List (String × minbond_details)

/-- A dynamically typed Python value as it occurs in the fit bookkeeping:
either a number, or the minbond_details namedtuple viewed as a tuple. -/
inductive PyVal where
  | num : ℝ → PyVal
  | tup : ℝ → ℕ → PyVal

/-- Python addition as used at line 101 (total += item.min_bond_length).
Number + number succeeds; adding an int and a namedtuple raises TypeError.
In fit the left operand is always a number because total starts as the int 0,
so the tuple-concatenation case of Python + is never reached. -/
noncomputable def pyAdd : PyVal → PyVal → Except String PyVal
  | PyVal.num a, PyVal.num b => Except.ok (PyVal.num (a + b))
  | _, _ => Except.error ("TypeError: unsupported operand types for plus")

/-- Python division as used at line 102 (total / len(...)). -/
noncomputable def pyDiv : PyVal → PyVal → Except String PyVal
  | PyVal.num a, PyVal.num b => Except.ok (PyVal.num (a / b))
  | _, _ => Except.error ("TypeError: unsupported operand types for division")

/-- The struct_data namedtuple (module __main__ scope): one recorded
observation, whose min_bond_length field receives, at line 97, the whole
minbond_details namedtuple. -/
structure struct_data where
  min_bond_length : PyVal
  task_id : String

/-- State of a VolumePredictor instance: the accumulated per-bond-type
observation lists and the averaged table. -/
structure VPState where
  bond_lengths : List (String × List struct_data)
  avg_bondlengths : List (String × PyVal)

/-- defaultdict(list) append: self.bond_lengths[bond].append(v). -/
noncomputable def appendBL : List (String × List struct_data) → String → struct_data → List (String × List struct_data)
  | [], b, v => [(b, [v])]
  | (k, l) :: rest, b, v =>
      if k = b then (k, l ++ [v]) :: rest else (k, l) :: appendBL rest b v

/-- Inner recording loop of fit (lines 95-97) over the bond types of one
structure: only records when ids is not None (the TODO at line 96), and
stores the whole minbond_details as min_bond_length via PyVal.tup. -/
noncomputable def fit_record (ids : Option (List String)) (idx : ℕ) :
    List (String × List struct_data) → Minbls → Except String (List (String × List struct_data))
  | bl, [] => Except.ok bl
  | bl, (bond, det) :: rest =>
      match ids with
      | none => fit_record ids idx bl rest
      | some l =>
          match l.get? idx with
          | none => Except.error ("IndexError: list index out of range")
          | some tid =>
              fit_record ids idx (appendBL bl bond ⟨PyVal.tup det.min_dist det.no_of_bonds, tid⟩) rest

/-- Outer recording loop of fit (line 93) over the enumerated structures,
each represented by its get_bondlengths result. -/
noncomputable def fit_accumulate (ids : Option (List String)) :
    ℕ → List (String × List struct_data) → List Minbls → Except String (List (String × List struct_data))
  | _, bl, [] => Except.ok bl
  | idx, bl, m :: rest =>
      match fit_record ids idx bl m with
      | Except.error e => Except.error e
      | Except.ok bl2 => fit_accumulate ids (idx + 1) bl2 rest

/-- total = 0; for item in items: total += item.min_bond_length (lines 99-101). -/
noncomputable def sumBL : PyVal → List struct_data → Except String PyVal
  | t, [] => Except.ok t
  | t, v :: rest =>
      match pyAdd t v.min_bond_length with
      | Except.error e => Except.error e
      | Except.ok t2 => sumBL t2 rest

/-- Average of one observation list (line 102): total / len(list). -/
noncomputable def avgOf (items : List struct_data) : Except String PyVal :=
  match sumBL (PyVal.num 0) items with
  | Except.error e => Except.error e
  | Except.ok t => pyDiv t (PyVal.num (items.length : ℝ))

/-- Averaging loop of fit (lines 98-102) over all accumulated bond types. -/
noncomputable def fit_average : List (String × List struct_data) → Except String (List (String × PyVal))
  | [] => Except.ok []
  | (b, items) :: rest =>
      match avgOf items with
      | Except.error e => Except.error e
      | Except.ok a =>
          match fit_average rest with
          | Except.error e => Except.error e
          | Except.ok tail => Except.ok ((b, a) :: tail)

/-- VolumePredictor.fit (lines 84-102).  Structures enter fit only through
get_bondlengths, so the argument list carries each structure as its
get_bondlengths result; volumes are accepted and ignored exactly as in the
source. -/
noncomputable def fit (st : VPState) (struct_minbls_list : List Minbls) (_volumes : List ℝ)
    (ids : Option (List String)) : Except String VPState :=
  match fit_accumulate ids 0 st.bond_lengths struct_minbls_list with
  | Except.error e => Except.error e
  | Except.ok bl =>
      match fit_average bl with
      | Except.error e => Except.error e
      | Except.ok avg => Except.ok ⟨bl, avg⟩

/-- el1, el2 = bond.split("-") at line 122, on the character list of the
bond-type string: succeeds exactly when the split has two parts. -/
def splitBond (b : String) : Option (String × String) :=
  match b.toList.splitOn '-' with
  | [e1, e2] => some (⟨e1⟩, ⟨e2⟩)
  | _ => none

/-- One pass of the loop at lines 115-125 of get_rmse, building the y vector,
the y_avg vector and the list of printed warnings.  avg is the
avg_bondlengths table (with numeric entries, as produced by
get_avg_bondlengths), radius the elemental atomic-radius lookup. -/
noncomputable def build_vectors (avg : String → Option ℝ) (radius : String → ℝ) (vf : ℝ) :
    Minbls → Except String (List ℝ × List ℝ × List String)
  | [] => Except.ok ([], [], [])
  | (b, d) :: rest =>
      let newmin := d.min_dist * vf ^ ((1 : ℝ) / 3)
      let ychunk := List.replicate d.no_of_bonds newmin
      match avg b with
      | some a =>
          match build_vectors avg radius vf rest with
          | Except.error e => Except.error e
          | Except.ok (y, ya, w) =>
              Except.ok (ychunk ++ y, List.replicate d.no_of_bonds a ++ ya, w)
      | none =>
          match splitBond b with
          | none => Except.error ("ValueError: bond type is not of the form A-B")
          | some (e1, e2) =>
              match build_vectors avg radius vf rest with
              | Except.error e => Except.error e
              | Except.ok (y, ya, w) =>
                  Except.ok (ychunk ++ y,
                    List.replicate d.no_of_bonds (radius e1 + radius e2) ++ ya,
                    (("Warning missing bond length for ") ++ b) :: w)

/-- VolumePredictor.get_rmse (lines 104-126): build the two vectors, then
return sqrt of sklearn mean_squared_error; sklearn rejects empty arrays. -/
noncomputable def get_rmse (avg : String → Option ℝ) (radius : String → ℝ)
    (m : Minbls) (vf : ℝ) : Except String ℝ :=
  match build_vectors avg radius vf m with
  | Except.error e => Except.error e
  | Except.ok (y, ya, _) =>
      if y.length = 0 then Except.error ("ValueError: empty data passed to mean_squared_error")
      else Except.ok (Real.sqrt ((((y.zip ya).map (fun p => (p.1 - p.2) ^ (2 : ℕ))).sum) / (y.length : ℝ)))

/-- Total number of bonds recorded in a minima mapping (the length of the y
vector built by get_rmse). -/
def totalCount (m : Minbls) : ℕ := (m.map (fun p => p.2.no_of_bonds)).sum

/-- Domain condition under which get_rmse is error free: every bond type
missing from the table splits as A-B, and at least one bond is recorded. -/
def rmse_defined (avg : String → Option ℝ) (m : Minbls) : Prop :=
  (∀ p ∈ m, avg p.1 = none → (splitBond p.1).isSome = true) ∧ 0 < totalCount m

/-- The numeric value returned by get_rmse when it succeeds. -/
noncomputable def rmseVal (avg : String → Option ℝ) (radius : String → ℝ)
    (m : Minbls) (vf : ℝ) : ℝ :=
  ((get_rmse avg radius m vf).toOption).getD 0

/-- C4 counterexample: a minima mapping whose bond type matches the table
exactly but records zero bonds makes get_rmse raise (sklearn rejects empty
arrays) instead of returning 0, refuting the claim for arbitrary mappings. -/
noncomputable def avgC4 : String → Option ℝ := fun _ => some 2

/-- Radius lookup for the C4 counterexample (never consulted). -/
noncomputable def radC4 : String → ℝ := fun _ => 0

/-- Minima mapping of the C4 counterexample: table value matches min_dist,
but no bonds are recorded. -/
noncomputable def mC4 : Minbls := [(("A-B"), ⟨2, 0⟩)]

/-- Target value used by get_rmse for one bond type: the table average when
present, else the sum of the two elemental atomic radii (lines 118-125). -/
noncomputable def bondTarget (avg : String → Option ℝ) (radius : String → ℝ) (b : String) : ℝ :=
  match avg b with
  | some a => a
  | none =>
      match splitBond b with
      | some pr => radius pr.1 + radius pr.2
      | none => 0

/-- Minima mapping for the C5 witness: one bond type in the table, one not. -/
noncomputable def mW5 : Minbls := [(("A-B"), ⟨2, 1⟩), (("C-D"), ⟨3, 2⟩)]

/-- Table for the C5 witness: only A-B is present. -/
noncomputable def avgW5 : String → Option ℝ :=
  fun b => if b = ("A-B") then some (5 / 2) else none

/-- Atomic radius lookup for the C5 witness. -/
noncomputable def radW5 : String → ℝ := fun e => if e = ("C") then 1 else 7

/-- The prediction_results namedtuple of predict (line 137): predicted
volume, the returned structure (represented by its mutated volume, see the
header comment), and the rmse that justified the choice. -/
structure prediction_results where
  volume : ℝ
  structureVolume : ℝ
  rmse : ℝ

/-- Loop state of the percentage scan at lines 142-151: tracked minimum
rmse, tracked predicted volume, tracked percentage, and the current
(mutated by scale_lattice) volume of the structure being scanned. -/
structure ScanAcc where
  min_rmse : ℝ
  predicted_volume : ℝ
  min_percentage : ℕ
  vol : ℝ

/-- The scan loop of predict (lines 143-151): for each percentage i the
structure is rescaled to (i * 0.01) * starting_volume (a side effect on
vol), the rmse of the starting minima scaled analytically by the factor is
computed, and the tracked minimum is updated only on strict improvement. -/
noncomputable def predictLoop (avg : String → Option ℝ) (radius : String → ℝ)
    (m : Minbls) (V0 : ℝ) : List ℕ → ScanAcc → Except String ScanAcc
  | [], a => Except.ok a
  | i :: rest, a =>
      let vol_factor : ℝ := (i : ℝ) * 0.01
      let test_volume := vol_factor * V0
      match get_rmse avg radius m vol_factor with
      | Except.error e => Except.error e
      | Except.ok test_rmse =>
          predictLoop avg radius m V0 rest
            (if test_rmse < a.min_rmse then ⟨test_rmse, test_volume, i, test_volume⟩
             else ⟨a.min_rmse, a.predicted_volume, a.min_percentage, test_volume⟩)

/-- Error-free image of predictLoop: the same fold with the rmse values
supplied by a function r. -/
noncomputable def scanPure (r : ℕ → ℝ) (V0 : ℝ) : List ℕ → ScanAcc → ScanAcc
  | [], a => a
  | i :: rest, a =>
      let test_volume := ((i : ℝ) * 0.01) * V0
      scanPure r V0 rest
        (if r i < a.min_rmse then ⟨r i, test_volume, i, test_volume⟩
         else ⟨a.min_rmse, a.predicted_volume, a.min_percentage, test_volume⟩)

/-- Final scan state of one predict invocation on a structure of volume V0
whose measured minima are m: baseline at factor 1, scan over 80..120. -/
noncomputable def scanOf (avg : String → Option ℝ) (radius : String → ℝ)
    (m : Minbls) (V0 : ℝ) : ScanAcc :=
  scanPure (fun i => rmseVal avg radius m ((i : ℝ) * 0.01)) V0 (List.range' 80 41)
    ⟨rmseVal avg radius m 1, V0, 100, V0⟩

/-- One invocation of VolumePredictor.predict (lines 128-155) without the
recursive call: get_bls is get_bondlengths as a function of the structure
volume (the only mutable structure state).  The result is either the
prediction_results return value of line 155 (Sum.inl) or, for line 153, the
volume of the mutated structure on which predict recurses (Sum.inr). -/
noncomputable def predict_step (avg : String → Option ℝ) (radius : String → ℝ)
    (get_bls : ℝ → Minbls) (v : ℝ) : Except String (prediction_results ⊕ ℝ) :=
  let starting_volume := v
  match get_rmse avg radius (get_bls v) 1 with
  | Except.error e => Except.error e
  | Except.ok min_rmse =>
      let starting_minbls := get_bls v
      match predictLoop avg radius starting_minbls starting_volume (List.range' 80 41)
          ⟨min_rmse, starting_volume, 100, v⟩ with
      | Except.error e => Except.error e
      | Except.ok a =>
          if a.min_percentage < 85 ∨ 115 < a.min_percentage then Except.ok (Sum.inr a.vol)
          else Except.ok (Sum.inl ⟨a.predicted_volume, a.vol, a.min_rmse⟩)

/-- predict with an explicit fuel bound on the unbounded recursion of line
153: Except.ok none means the fuel ran out before any result was produced. -/
noncomputable def predictFuel (avg : String → Option ℝ) (radius : String → ℝ)
    (get_bls : ℝ → Minbls) : ℕ → ℝ → Except String (Option prediction_results)
  | 0, _ => Except.ok none
  | Nat.succ n, v =>
      match predict_step avg radius get_bls v with
      | Except.error e => Except.error e
      | Except.ok (Sum.inl res) => Except.ok (some res)
      | Except.ok (Sum.inr v2) => predictFuel avg radius get_bls n v2

/-- Postcondition of the scan fold: starting from accumulator a, the final
state F tracks the first strict minimum of r over the scanned list, keeps
predicted_volume consistent with min_percentage, and is unchanged (except
for vol) when nothing beats the incoming minimum. -/
def ScanPost (r : ℕ → ℝ) (V0 : ℝ) (L : List ℕ) (a F : ScanAcc) : Prop :=
  F.predicted_volume = (F.min_percentage : ℝ) * 0.01 * V0 ∧
  F.min_rmse = r F.min_percentage ∧
  (F.min_percentage = a.min_percentage ∨ F.min_percentage ∈ L) ∧
  (∀ i ∈ L, F.min_rmse ≤ r i) ∧
  F.min_rmse ≤ a.min_rmse ∧
  (F.min_rmse < a.min_rmse → ∀ i ∈ L, i < F.min_percentage → F.min_rmse < r i) ∧
  (¬ F.min_rmse < a.min_rmse →
    F.min_percentage = a.min_percentage ∧ F.predicted_volume = a.predicted_volume ∧
    F.min_rmse = a.min_rmse)

/-- Minima of the diverging predict instance: one bond, one observation,
minimum distance 1. -/
noncomputable def mD : Minbls := [(("A-B"), ⟨1, 1⟩)]

/-- Table of the diverging instance: every bond type averages to 0, which
makes the rmse strictly increasing in the volume factor, so the scan always
selects 80 percent. -/
noncomputable def avgD : String → Option ℝ := fun _ => some 0

/-- Radius lookup of the diverging instance (never consulted). -/
noncomputable def radD : String → ℝ := fun _ => 0

/-- Geometry oracle of the diverging instance: the measured minima are the
same at every volume, so each recursive invocation repeats the same scan. -/
noncomputable def gbD : ℝ → Minbls := fun _ => mD

/-- Minima of the returning witness instance: minimum distance 0 makes the
rmse constant in the volume factor, so the scan keeps percentage 100. -/
noncomputable def mW : Minbls := [(("A"), ⟨0, 1⟩)]

/-- Table of the returning witness instance. -/
noncomputable def avgW : String → Option ℝ := fun _ => some 1

/-- Radius lookup of the returning witness instance (never consulted). -/
noncomputable def radW : String → ℝ := fun _ => 0

/-- Geometry oracle of the returning witness instance. -/
noncomputable def gbW : ℝ → Minbls := fun _ => mW

/-- Element data consumed by VolumePredictorSimple (lines 273-274): atomic
radius and average ionic radius; pymatgen reports 0 (falsy) when no ionic
radii are tabulated, and Python truthiness tests that value. -/
structure PElement where
  atomic_radius : ℝ
  average_ionic_radius : ℝ

/-- A structure as consumed by VolumePredictorSimple: the ordered flag, the
sites (each carried as its element; the neighbor search is keyed by site
index), and the lattice represented by its volume, since scale_lattice only
rescales isotropically and fractional coordinates are preserved. -/
structure SimpleStructure where
  sites : List PElement
  volume : ℝ
  is_ordered : Bool

/-- Constructor state of VolumePredictorSimple (lines 232-246). -/
structure SimpleCfg where
  cutoff : ℝ
  max_cutoff : ℝ
  ionic_mix : ℝ

/-- Observable state of the cutoff-doubling loop after it stops: the found
neighbors, the final cutoff variable, the number of executed loop bodies,
and the radii passed to get_neighbors, in order. -/
structure EscState where
  found : List (PElement × ℝ)
  cutoff : ℝ
  iters : ℕ
  radii : List ℝ

section
open Classical

/-- The while loop of lines 267-269 (while not x and cutoff <= max_cutoff:
x = get_neighbors(site, cutoff); cutoff *= 2), with explicit fuel standing
for the unbounded iteration; nbrs is the neighbor search around the fixed
site as a function of the radius. -/
noncomputable def escalateF (nbrs : ℝ → List (PElement × ℝ)) (mx : ℝ) :
    ℕ → List (PElement × ℝ) → ℝ → EscState
  | 0, x, c => ⟨x, c, 0, []⟩
  | Nat.succ n, x, c =>
      if x = [] ∧ c ≤ mx then
        let s := escalateF nbrs mx n (nbrs c) (c * 2)
        ⟨s.found, s.cutoff, s.iters + 1, c :: s.radii⟩
      else ⟨x, c, 0, []⟩

end

/-- Blended expected radius per element (lines 273-274): ionic mix applied
when the average ionic radius is truthy (nonzero), else the atomic radius. -/
noncomputable def blendRadius (e : PElement) (mix : ℝ) : ℝ :=
  if e.average_ionic_radius ≠ 0 then
    e.average_ionic_radius * mix + e.atomic_radius * (1 - mix)
  else e.atomic_radius

/-- Update of smallest_distance at lines 276-277, with Python truthiness:
None and a stored 0.0 both count as unset and are overwritten. -/
noncomputable def updateSd (sd : Option ℝ) (ratio : ℝ) : Option ℝ :=
  match sd with
  | none => some ratio
  | some s => if s = 0 then some ratio else if ratio < s then some ratio else some s

/-- VolumePredictorSimple.predict (lines 248-288) acting on a structure
value: nbrs i is the neighbor search around site i as a function of the
radius; fuel bounds the unbounded while loop of line 267.  The final test
`if not smallest_distance` raises both for None and for a stored 0.0. -/
noncomputable def predict_core (nbrs : ℕ → ℝ → List (PElement × ℝ)) (cfg : SimpleCfg)
    (fuel : ℕ) (s : SimpleStructure) : Except String SimpleStructure :=
  if s.is_ordered = false then
    Except.error ("VolumePredictorSimple only works with ordered structures!")
  else
    match s.sites.enum.foldl (fun sd p =>
      ((escalateF (nbrs p.1) cfg.max_cutoff fuel [] cfg.cutoff).found).foldl
        (fun sd q =>
          updateSd sd (q.2 / (blendRadius p.2 cfg.ionic_mix + blendRadius q.1 cfg.ionic_mix)))
        sd) none with
    | none => Except.error ("Could not find any appropriate bonds in this material; ensure structure validity or increase max_cutoff!")
    | some v =>
        if v = 0 then
          Except.error ("Could not find any appropriate bonds in this material; ensure structure validity or increase max_cutoff!")
        else Except.ok ⟨s.sites, s.volume * (1 / v) ^ (3 : ℕ), s.is_ordered⟩

/-- Object-identity wrapper for the frame claim: the program state is a
store of structures; predict reads structure r, leaves the store entries
unchanged, and appends the volume-adjusted copy s2 = structure.copy()
(line 285), returning its fresh reference. -/
noncomputable def predictS (nbrs : ℕ → ℝ → List (PElement × ℝ)) (cfg : SimpleCfg)
    (fuel : ℕ) (r : ℕ) (st : List SimpleStructure) :
    Except String (ℕ × List SimpleStructure) :=
  match st.get? r with
  | none => Except.error ("invalid structure reference")
  | some s =>
      match predict_core nbrs cfg fuel s with
      | Except.error e => Except.error e
      | Except.ok s2 => Except.ok (st.length, st ++ [s2])

/-- All ratios actual distance / expected distance examined by
VolumePredictorSimple.predict, in program order. -/
noncomputable def allRatios (nbrs : ℕ → ℝ → List (PElement × ℝ)) (cfg : SimpleCfg)
    (fuel : ℕ) (s : SimpleStructure) : List ℝ :=
  s.sites.enum.flatMap (fun p =>
    ((escalateF (nbrs p.1) cfg.max_cutoff fuel [] cfg.cutoff).found).map
      (fun q => q.2 / (blendRadius p.2 cfg.ionic_mix + blendRadius q.1 cfg.ionic_mix)))

/-- The minimum examined ratio (0 when no ratio was examined). -/
noncomputable def ratioMin (nbrs : ℕ → ℝ → List (PElement × ℝ)) (cfg : SimpleCfg)
    (fuel : ℕ) (s : SimpleStructure) : ℝ :=
  match allRatios nbrs cfg fuel s with
  | [] => 0
  | x :: xs => xs.foldl min x

/-- Element used by the radius-ratio instances: atomic radius 1, no ionic
radius. -/
noncomputable def eC7 : PElement := ⟨1, 0⟩

/-- Structure of the radius-ratio counterexample: one ordered site, volume
27. -/
noncomputable def sC7 : SimpleStructure := ⟨[eC7], 27, true⟩

/-- Neighbor oracle of the radius-ratio counterexample: a coincident
neighbor at distance 0 (ratio 0) followed by one at distance 6 (ratio 3). -/
noncomputable def nC7 : ℕ → ℝ → List (PElement × ℝ) := fun _ _ => [(eC7, 0), (eC7, 6)]

/-- The default VolumePredictorSimple configuration: cutoff 8, max_cutoff
32, ionic_mix 0.2. -/
noncomputable def cfg0 : SimpleCfg := ⟨8, 32, 0.2⟩

/-- A disordered one-site structure. -/
noncomputable def sUnordered : SimpleStructure := ⟨[eC7], 1, false⟩

/-- An ordered one-site structure used with an empty neighbor oracle. -/
noncomputable def sLonely : SimpleStructure := ⟨[eC7], 1, true⟩

/-- Neighbor oracle that never finds neighbors. -/
noncomputable def nEmpty : ℕ → ℝ → List (PElement × ℝ) := fun _ _ => []

/-- Neighbor oracle with a single neighbor exactly at the expected touching
distance 2 = 1 + 1 (ratio 1). -/
noncomputable def nTouch : ℕ → ℝ → List (PElement × ℝ) := fun _ _ => [(eC7, 2)]

/-- The structure produced by the frame witness: same sites, volume
unchanged because the minimum ratio is 1. -/
noncomputable def sOut : SimpleStructure := ⟨[eC7], 27, true⟩

-- ===== further definitions are inserted above this marker =====

-- ===== THEOREMS =====

/-- Helper: the y vector and y_avg vector built by get_rmse have length equal
to the total bond count, and building succeeds whenever every bond type
missing from the table is of the form A-B. -/
theorem build_vectors_ok (avg : String → Option ℝ) (radius : String → ℝ) (vf : ℝ) :
    ∀ m : Minbls, (∀ p ∈ m, avg p.1 = none → (splitBond p.1).isSome = true) →
    ∃ y ya w, build_vectors avg radius vf m = Except.ok (y, ya, w) ∧
      y.length = totalCount m ∧ ya.length = totalCount m
  | [], _ => ⟨[], [], [], rfl, rfl, rfl⟩
  | (b, d) :: rest, h => by
      obtain ⟨y, ya, w, hb, hy, hya⟩ :=
        build_vectors_ok avg radius vf rest (fun p hp => h p (List.mem_cons_of_mem _ hp))
      cases havg : avg b with
      | some a =>
          refine ⟨List.replicate d.no_of_bonds (d.min_dist * vf ^ ((1 : ℝ) / 3)) ++ y,
            List.replicate d.no_of_bonds a ++ ya, w, ?_, ?_, ?_⟩
          · simp [build_vectors, havg, hb]
          · simp [hy, totalCount]
          · simp [hya, totalCount]
      | none =>
          have hsp : (splitBond b).isSome = true := h (b, d) (List.mem_cons_self _ _) havg
          cases hsb : splitBond b with
          | none => rw [hsb] at hsp; simp at hsp
          | some pr =>
              refine ⟨List.replicate d.no_of_bonds (d.min_dist * vf ^ ((1 : ℝ) / 3)) ++ y,
                List.replicate d.no_of_bonds (radius pr.1 + radius pr.2) ++ ya,
                (("Warning missing bond length for ") ++ b) :: w, ?_, ?_, ?_⟩
              · simp [build_vectors, havg, hsb, hb]
              · simp [hy, totalCount]
              · simp [hya, totalCount]

/-- Helper: under the domain condition, get_rmse succeeds and returns the
value rmseVal. -/
theorem get_rmse_eq_ok (avg : String → Option ℝ) (radius : String → ℝ)
    (m : Minbls) (vf : ℝ) (hd : rmse_defined avg m) :
    get_rmse avg radius m vf = Except.ok (rmseVal avg radius m vf) := by
  obtain ⟨y, ya, w, hb, hy, _⟩ := build_vectors_ok avg radius vf m hd.1
  have hne : ¬ y.length = 0 := by
    rw [hy]; exact Nat.pos_iff_ne_zero.mp hd.2
  rw [rmseVal, get_rmse, hb]
  simp only [hne, if_false, ite_false, Except.toOption, Option.getD_some]

/-- Helper: squared differences of a list zipped with itself sum to zero. -/
theorem zip_self_sq_sum : ∀ y : List ℝ, ((y.zip y).map (fun p => (p.1 - p.2) ^ (2 : ℕ))).sum = 0
  | [] => rfl
  | a :: rest => by simp [zip_self_sq_sum rest]

/-- C1 (code_bug): the spec scenario for fit — two structures whose only bond
type A-B has per-structure minima 2.0 and 2.4, with ids s1 and s2 — does not
produce avg_bondlengths of 2.2; instead, because line 97 appends the whole
minbond_details namedtuple as min_bond_length, the accumulation
total += item.min_bond_length at line 101 raises TypeError. -/
theorem fit_scenario_typeerror :
    fit ⟨[], []⟩ [[(("A-B"), ⟨2.0, 4⟩)], [(("A-B"), ⟨2.4, 4⟩)]] [1, 1]
        (some [("s1"), ("s2")]) =
      Except.error ("TypeError: unsupported operand types for plus") := rfl

/-- C4 (counterexample): at the concrete input mC4 — whose only entry has
avg_bondlengths value equal to its min_dist — get_rmse at volume factor 1
raises instead of returning 0. -/
theorem get_rmse_identity_cex :
    avgC4 ("A-B") = some ((2 : ℝ)) ∧
    get_rmse avgC4 radC4 mC4 1 =
      Except.error ("ValueError: empty data passed to mean_squared_error") ∧
    get_rmse avgC4 radC4 mC4 1 ≠ Except.ok 0 := by
  have he : get_rmse avgC4 radC4 mC4 1 =
      Except.error ("ValueError: empty data passed to mean_squared_error") := rfl
  refine ⟨rfl, he, ?_⟩
  rw [he]
  intro h
  exact Except.noConfusion h

/-- C4 (amended): if every bond type of the minima mapping has a table entry
equal to its recorded minimum distance, and the mapping records at least one
bond, then get_rmse at volume factor 1 returns exactly 0. -/
theorem get_rmse_identity_zero (avg : String → Option ℝ) (radius : String → ℝ)
    (m : Minbls) (hmatch : ∀ p ∈ m, avg p.1 = some p.2.min_dist)
    (hc : 0 < totalCount m) :
    get_rmse avg radius m 1 = Except.ok 0 := by
  have hbuild : ∀ m2 : Minbls, (∀ p ∈ m2, avg p.1 = some p.2.min_dist) →
      ∃ y w, build_vectors avg radius 1 m2 = Except.ok (y, y, w) ∧
        y.length = totalCount m2 := by
    intro m2
    induction m2 with
    | nil => intro _; exact ⟨[], [], rfl, rfl⟩
    | cons p rest ih =>
        intro h2
        obtain ⟨y, w, hb, hy⟩ := ih (fun q hq => h2 q (List.mem_cons_of_mem _ hq))
        have havg : avg p.1 = some p.2.min_dist := h2 p (List.mem_cons_self _ _)
        refine ⟨List.replicate p.2.no_of_bonds p.2.min_dist ++ y, w, ?_, ?_⟩
        · cases p with
          | mk b d =>
              have hone : d.min_dist * (1 : ℝ) ^ ((1 : ℝ) / 3) = d.min_dist := by
                rw [Real.one_rpow, mul_one]
              simp [build_vectors, havg, hb, hone]
        · simp [hy, totalCount]
  obtain ⟨y, w, hb, hy⟩ := hbuild m hmatch
  have hne : ¬ y.length = 0 := by
    rw [hy]; exact Nat.pos_iff_ne_zero.mp hc
  rw [get_rmse, hb]
  simp [hne, zip_self_sq_sum, Real.sqrt_zero]

/-- C4 (witness for the amended claim): a one-entry mapping recording three
bonds with matching table value gives rmse exactly 0. -/
theorem get_rmse_identity_zero_witness :
    get_rmse avgC4 radC4 [(("A-B"), ⟨2, 3⟩)] 1 = Except.ok 0 :=
  get_rmse_identity_zero avgC4 radC4 [(("A-B"), ⟨2, 3⟩)]
    (by intro p hp; simp at hp; rw [hp]; rfl)
    (by simp [totalCount])

/-- Helper: with a total bond count of zero, get_rmse raises the sklearn
empty-array error (for any table and any volume factor). -/
theorem get_rmse_eq_error_of_count_zero (avg : String → Option ℝ) (radius : String → ℝ)
    (m : Minbls) (vf : ℝ)
    (hwf : ∀ p ∈ m, avg p.1 = none → (splitBond p.1).isSome = true)
    (h0 : totalCount m = 0) :
    get_rmse avg radius m vf =
      Except.error ("ValueError: empty data passed to mean_squared_error") := by
  obtain ⟨y, ya, w, hb, hy, _⟩ := build_vectors_ok avg radius vf m hwf
  rw [get_rmse, hb]
  simp [hy.trans h0]

/-- C5 (confirmed): in get_rmse, every bond type present in the minima but
absent from avg_bondlengths contributes the sum of the two elemental atomic
radii, replicated no_of_bonds times, to the target vector, and emits a
warning; bond types present in the table contribute the table average the
same number of times; and a missing table entry never aborts the call — the
call fails exactly when the total bond count is zero, independently of the
table. -/
theorem get_rmse_missing_bond_fallback (avg : String → Option ℝ) (radius : String → ℝ)
    (m : Minbls) (vf : ℝ)
    (hwf : ∀ p ∈ m, avg p.1 = none → (splitBond p.1).isSome = true) :
    build_vectors avg radius vf m = Except.ok
      (m.flatMap (fun p => List.replicate p.2.no_of_bonds (p.2.min_dist * vf ^ ((1 : ℝ) / 3))),
       m.flatMap (fun p => List.replicate p.2.no_of_bonds (bondTarget avg radius p.1)),
       (m.filter (fun p => (avg p.1).isNone)).map
         (fun p => ("Warning missing bond length for ") ++ p.1)) ∧
    ((∃ r, get_rmse avg radius m vf = Except.ok r) ↔ 0 < totalCount m) := by
  have hbuild : ∀ m2 : Minbls, (∀ p ∈ m2, avg p.1 = none → (splitBond p.1).isSome = true) →
      build_vectors avg radius vf m2 = Except.ok
        (m2.flatMap (fun p => List.replicate p.2.no_of_bonds (p.2.min_dist * vf ^ ((1 : ℝ) / 3))),
         m2.flatMap (fun p => List.replicate p.2.no_of_bonds (bondTarget avg radius p.1)),
         (m2.filter (fun p => (avg p.1).isNone)).map
           (fun p => ("Warning missing bond length for ") ++ p.1)) := by
    intro m2
    induction m2 with
    | nil => intro _; rfl
    | cons p rest ih =>
        intro h2
        have hr := ih (fun q hq => h2 q (List.mem_cons_of_mem _ hq))
        cases p with
        | mk b d =>
            cases havg : avg b with
            | some a =>
                have hbt : bondTarget avg radius b = a := by rw [bondTarget, havg]
                simp [build_vectors, havg, hr, hbt]
            | none =>
                have hsp : (splitBond b).isSome = true :=
                  h2 (b, d) (List.mem_cons_self _ _) havg
                cases hsb : splitBond b with
                | none => rw [hsb] at hsp; simp at hsp
                | some pr =>
                    have hbt : bondTarget avg radius b = radius pr.1 + radius pr.2 := by
                      rw [bondTarget, havg, hsb]
                    cases pr with
                    | mk e1 e2 => simp [build_vectors, havg, hsb, hr, hbt]
  have hb := hbuild m hwf
  refine ⟨hb, ?_⟩
  constructor
  · rintro ⟨r, hr⟩
    by_contra hc
    rw [get_rmse_eq_error_of_count_zero avg radius m vf hwf (Nat.eq_zero_of_not_pos hc)] at hr
    exact Except.noConfusion hr
  · intro hc
    exact ⟨_, get_rmse_eq_ok avg radius m vf ⟨hwf, hc⟩⟩

/-- C5 (witness): concrete two-bond minima where C-D is missing from the
table; the target vector uses the table value 5/2 once for A-B and the
radius sum 1 + 7 twice for C-D, one warning is emitted, and the call
succeeds. -/
theorem get_rmse_missing_bond_fallback_witness :
    build_vectors avgW5 radW5 2 mW5 = Except.ok
      (mW5.flatMap (fun p => List.replicate p.2.no_of_bonds (p.2.min_dist * (2 : ℝ) ^ ((1 : ℝ) / 3))),
       mW5.flatMap (fun p => List.replicate p.2.no_of_bonds (bondTarget avgW5 radW5 p.1)),
       (mW5.filter (fun p => (avgW5 p.1).isNone)).map
         (fun p => ("Warning missing bond length for ") ++ p.1)) ∧
    (∃ r, get_rmse avgW5 radW5 mW5 2 = Except.ok r) := by
  have h := get_rmse_missing_bond_fallback avgW5 radW5 mW5 2 (by
    intro p hp hnone
    rw [mW5] at hp
    rcases List.mem_cons.mp hp with h1 | h1
    · rw [h1] at hnone; simp [avgW5] at hnone
    · rcases List.mem_singleton.mp h1 with h2
      rw [h2]; rfl)
  exact ⟨h.1, h.2.mpr (by rw [mW5, totalCount]; simp)⟩

/-- Helper: full characterization of the scan fold (lines 143-151) over any
strictly increasing list of percentages. -/
theorem scanPure_spec (r : ℕ → ℝ) (V0 : ℝ) :
    ∀ L : List ℕ, L.Pairwise (· < ·) → ∀ a : ScanAcc,
      a.predicted_volume = (a.min_percentage : ℝ) * 0.01 * V0 →
      a.min_rmse = r a.min_percentage →
      ScanPost r V0 L a (scanPure r V0 L a) := by
  intro L
  induction L with
  | nil =>
      intro _ a h1 h2
      exact ⟨h1, h2, Or.inl rfl, by simp, le_refl _, by simp, fun _ => ⟨rfl, rfl, rfl⟩⟩
  | cons i t ih =>
      intro hp a h1 h2
      have hit : ∀ j ∈ t, i < j := (List.pairwise_cons.mp hp).1
      have hpt : t.Pairwise (· < ·) := (List.pairwise_cons.mp hp).2
      by_cases hlt : r i < a.min_rmse
      · have hstep : scanPure r V0 (i :: t) a =
            scanPure r V0 t ⟨r i, (i : ℝ) * 0.01 * V0, i, (i : ℝ) * 0.01 * V0⟩ := by
          rw [scanPure, if_pos hlt]
        obtain ⟨c1, c2, c3, c4, c5, c6, c7⟩ :=
          ih hpt ⟨r i, (i : ℝ) * 0.01 * V0, i, (i : ℝ) * 0.01 * V0⟩ rfl rfl
        rw [hstep]
        refine ⟨c1, c2, ?_, ?_, ?_, ?_, ?_⟩
        · rcases c3 with h | h
          · exact Or.inr (by rw [h]; exact List.mem_cons_self _ _)
          · exact Or.inr (List.mem_cons_of_mem _ h)
        · intro j hj
          rcases List.mem_cons.mp hj with h | h
          · rw [h]; exact c5
          · exact c4 j h
        · exact le_trans c5 (le_of_lt hlt)
        · intro _ j hj hjF
          rcases List.mem_cons.mp hj with h | h
          · by_cases hF1 : (scanPure r V0 t ⟨r i, (i : ℝ) * 0.01 * V0, i, (i : ℝ) * 0.01 * V0⟩).min_rmse < r i
            · rw [h]; exact hF1
            · obtain ⟨hFp, _, _⟩ := c7 hF1
              rw [hFp, h] at hjF
              exact absurd hjF (lt_irrefl i)
          · by_cases hF1 : (scanPure r V0 t ⟨r i, (i : ℝ) * 0.01 * V0, i, (i : ℝ) * 0.01 * V0⟩).min_rmse < r i
            · exact c6 hF1 j h hjF
            · obtain ⟨hFp, _, _⟩ := c7 hF1
              rw [hFp] at hjF
              exact absurd hjF (not_lt.mpr (le_of_lt (hit j h)))
        · intro hFa
          exact absurd (lt_of_le_of_lt c5 hlt) hFa
      · have hstep : scanPure r V0 (i :: t) a =
            scanPure r V0 t ⟨a.min_rmse, a.predicted_volume, a.min_percentage, (i : ℝ) * 0.01 * V0⟩ := by
          rw [scanPure, if_neg hlt]
        obtain ⟨c1, c2, c3, c4, c5, c6, c7⟩ :=
          ih hpt ⟨a.min_rmse, a.predicted_volume, a.min_percentage, (i : ℝ) * 0.01 * V0⟩ h1 h2
        rw [hstep]
        refine ⟨c1, c2, ?_, ?_, c5, ?_, ?_⟩
        · rcases c3 with h | h
          · exact Or.inl h
          · exact Or.inr (List.mem_cons_of_mem _ h)
        · intro j hj
          rcases List.mem_cons.mp hj with h | h
          · rw [h]; exact le_trans c5 (not_lt.mp hlt)
          · exact c4 j h
        · intro hFa j hj hjF
          rcases List.mem_cons.mp hj with h | h
          · rw [h]; exact lt_of_lt_of_le hFa (not_lt.mp hlt)
          · exact c6 hFa j h hjF
        · intro hFa
          exact c7 hFa

/-- Helper: the scan fold over an appended list is the composition of the
two folds. -/
theorem scanPure_append (r : ℕ → ℝ) (V0 : ℝ) :
    ∀ (L1 L2 : List ℕ) (a : ScanAcc),
      scanPure r V0 (L1 ++ L2) a = scanPure r V0 L2 (scanPure r V0 L1 a) := by
  intro L1
  induction L1 with
  | nil => intro L2 a; rfl
  | cons i t ih =>
      intro L2 a
      rw [List.cons_append, scanPure, scanPure]
      exact ih L2 _

/-- Helper: after the full 80..120 scan the structure is left at the last
scanned factor, 120 percent of the starting volume, whichever percentage
won the minimization. -/
theorem scanOf_vol (avg : String → Option ℝ) (radius : String → ℝ)
    (m : Minbls) (V0 : ℝ) :
    (scanOf avg radius m V0).vol = (120 : ℝ) * 0.01 * V0 := by
  have h41 : List.range' 80 41 = List.range' 80 40 ++ [120] := by decide
  rw [scanOf, h41, scanPure_append]
  by_cases h : rmseVal avg radius m (((120 : ℕ) : ℝ) * 0.01) <
      (scanPure (fun i => rmseVal avg radius m ((i : ℝ) * 0.01)) V0 (List.range' 80 40)
        ⟨rmseVal avg radius m 1, V0, 100, V0⟩).min_rmse
  · rw [scanPure, if_pos h]; norm_num [scanPure]
  · rw [scanPure, if_neg h]; norm_num [scanPure]

/-- Helper: under the domain condition the scan loop never raises and equals
the pure fold of the rmse values. -/
theorem predictLoop_eq_scanPure (avg : String → Option ℝ) (radius : String → ℝ)
    (m : Minbls) (V0 : ℝ) (hd : rmse_defined avg m) :
    ∀ (L : List ℕ) (a : ScanAcc),
      predictLoop avg radius m V0 L a =
        Except.ok (scanPure (fun i => rmseVal avg radius m ((i : ℝ) * 0.01)) V0 L a) := by
  intro L
  induction L with
  | nil => intro a; rfl
  | cons i t ih =>
      intro a
      rw [predictLoop, get_rmse_eq_ok avg radius m ((i : ℝ) * 0.01) hd]
      rw [scanPure]
      exact ih _

/-- Helper: under the domain condition, one predict invocation reduces to a
branch on the final scan state. -/
theorem predict_step_eq (avg : String → Option ℝ) (radius : String → ℝ)
    (get_bls : ℝ → Minbls) (v : ℝ) (hd : rmse_defined avg (get_bls v)) :
    predict_step avg radius get_bls v =
      (if (scanOf avg radius (get_bls v) v).min_percentage < 85 ∨
          115 < (scanOf avg radius (get_bls v) v).min_percentage
       then Except.ok (Sum.inr (scanOf avg radius (get_bls v) v).vol)
       else Except.ok (Sum.inl ⟨(scanOf avg radius (get_bls v) v).predicted_volume,
          (scanOf avg radius (get_bls v) v).vol,
          (scanOf avg radius (get_bls v) v).min_rmse⟩)) := by
  rw [predict_step]
  simp only [get_rmse_eq_ok avg radius (get_bls v) 1 hd,
    predictLoop_eq_scanPure avg radius (get_bls v) v hd]
  rfl

/-- Helper: the scan postcondition holds for the actual 80..120 scan of one
predict invocation. -/
theorem scanOf_spec (avg : String → Option ℝ) (radius : String → ℝ)
    (m : Minbls) (V0 : ℝ) :
    ScanPost (fun i => rmseVal avg radius m ((i : ℝ) * 0.01)) V0 (List.range' 80 41)
      ⟨rmseVal avg radius m 1, V0, 100, V0⟩ (scanOf avg radius m V0) := by
  have harg : (((100 : ℕ) : ℝ) * 0.01) = 1 := by norm_num
  exact scanPure_spec (fun i => rmseVal avg radius m ((i : ℝ) * 0.01)) V0
    (List.range' 80 41) (List.pairwise_lt_range' 80 41)
    ⟨rmseVal avg radius m 1, V0, 100, V0⟩ (by norm_num)
    (by show rmseVal avg radius m 1 = rmseVal avg radius m (((100 : ℕ) : ℝ) * 0.01); rw [harg])

/-- C2 (confirmed): predict evaluates a baseline rmse at volume factor 1.0,
scans every integer percentage from 80 to 120 inclusive computing candidate
rmse analytically from the starting minima (never remeasuring the rescaled
structure), tracks the minimum with strict less-than so the first (lowest)
percentage achieving the minimum wins, reports predicted volume = factor
times starting volume for that percentage, and keeps the starting volume
when no scanned factor beats the baseline. -/
theorem predict_scan_minimization (avg : String → Option ℝ) (radius : String → ℝ)
    (get_bls : ℝ → Minbls) (v : ℝ) (hd : rmse_defined avg (get_bls v)) :
    ∀ F, F = scanOf avg radius (get_bls v) v →
    get_rmse avg radius (get_bls v) 1 = Except.ok (rmseVal avg radius (get_bls v) 1) ∧
    predictLoop avg radius (get_bls v) v (List.range' 80 41)
        ⟨rmseVal avg radius (get_bls v) 1, v, 100, v⟩ = Except.ok F ∧
    (∀ gb2 : ℝ → Minbls, gb2 v = get_bls v →
      predict_step avg radius gb2 v = predict_step avg radius get_bls v) ∧
    F.predicted_volume = (F.min_percentage : ℝ) * 0.01 * v ∧
    F.min_rmse = rmseVal avg radius (get_bls v) ((F.min_percentage : ℝ) * 0.01) ∧
    (80 ≤ F.min_percentage ∧ F.min_percentage ≤ 120) ∧
    (∀ i : ℕ, 80 ≤ i → i ≤ 120 →
      F.min_rmse ≤ rmseVal avg radius (get_bls v) ((i : ℝ) * 0.01)) ∧
    F.min_rmse ≤ rmseVal avg radius (get_bls v) 1 ∧
    (F.min_rmse < rmseVal avg radius (get_bls v) 1 →
      ∀ i : ℕ, 80 ≤ i → i < F.min_percentage →
        F.min_rmse < rmseVal avg radius (get_bls v) ((i : ℝ) * 0.01)) ∧
    ((∀ i : ℕ, 80 ≤ i → i ≤ 120 →
        rmseVal avg radius (get_bls v) 1 ≤ rmseVal avg radius (get_bls v) ((i : ℝ) * 0.01)) →
      F.predicted_volume = v ∧ F.min_percentage = 100) ∧
    (∀ res, predict_step avg radius get_bls v = Except.ok (Sum.inl res) →
      res.volume = F.predicted_volume ∧ res.rmse = F.min_rmse) := by
  intro F hF
  subst hF
  obtain ⟨c1, c2, c3, c4, c5, c6, c7⟩ := scanOf_spec avg radius (get_bls v) v
  have harg : (((100 : ℕ) : ℝ) * 0.01) = 1 := by norm_num
  set F := scanOf avg radius (get_bls v) v with hFdef
  have hbase : rmseVal avg radius (get_bls v) (((100 : ℕ) : ℝ) * 0.01) =
      rmseVal avg radius (get_bls v) 1 := by rw [harg]
  have hbounds : 80 ≤ F.min_percentage ∧ F.min_percentage ≤ 120 := by
    rcases c3 with hp | hp
    · rw [hp]; exact ⟨by norm_num, by norm_num⟩
    · have hm := List.mem_range'_1.mp hp
      exact ⟨hm.1, by omega⟩
  refine ⟨get_rmse_eq_ok avg radius (get_bls v) 1 hd,
    predictLoop_eq_scanPure avg radius (get_bls v) v hd _ _, ?_, c1, c2, hbounds, ?_, ?_, ?_, ?_, ?_⟩
  · intro gb2 hgb
    simp only [predict_step, hgb]
  · intro i h80 h120
    exact c4 i (List.mem_range'_1.mpr ⟨h80, by omega⟩)
  · exact c5
  · intro hlt i h80 hip
    exact c6 hlt i (List.mem_range'_1.mpr ⟨h80, by omega⟩) hip
  · intro hall
    have hnlt : ¬ F.min_rmse < rmseVal avg radius (get_bls v) 1 := by
      intro hlt
      rcases c3 with hp | hp
      · have heq : F.min_rmse = rmseVal avg radius (get_bls v) 1 := by
          rw [c2, hp]; exact hbase
        rw [heq] at hlt
        exact lt_irrefl _ hlt
      · have hm := List.mem_range'_1.mp hp
        have hle := hall F.min_percentage hm.1 (by omega)
        have hle2 : rmseVal avg radius (get_bls v) 1 ≤ F.min_rmse := by
          rw [c2]; exact hle
        exact absurd hlt (not_lt.mpr hle2)
    obtain ⟨hFp, hFpv, _⟩ := c7 hnlt
    exact ⟨hFpv, hFp⟩
  · intro res hres
    rw [predict_step_eq avg radius get_bls v hd, ← hFdef] at hres
    by_cases hc : F.min_percentage < 85 ∨ 115 < F.min_percentage
    · rw [if_pos hc] at hres
      simp at hres
    · rw [if_neg hc] at hres
      simp only [Except.ok.injEq, Sum.inl.injEq] at hres
      rw [← hres]
      exact ⟨rfl, rfl⟩

/-- Helper: the witness instance table gives every bond the constant rmse 1
(minimum distance 0 cancels the volume-factor dependence). -/
theorem rmseValW (vf : ℝ) : rmseVal avgW radW mW vf = 1 := by
  have hb : build_vectors avgW radW vf mW = Except.ok ([0], [(1 : ℝ)], []) := by
    simp [build_vectors, avgW, mW]
  rw [rmseVal, get_rmse, hb]
  norm_num [Real.sqrt_one]
  rfl

/-- Helper: the witness instance rmse is the same at every factor, so the
scan keeps percentage 100, the starting volume, and minimum rmse 1. -/
theorem scanOfW_fields (v : ℝ) :
    (scanOf avgW radW mW v).min_percentage = 100 ∧
    (scanOf avgW radW mW v).predicted_volume = v ∧
    (scanOf avgW radW mW v).min_rmse = 1 := by
  obtain ⟨c1, c2, c3, c4, c5, c6, c7⟩ := scanOf_spec avgW radW mW v
  have hnlt : ¬ (scanOf avgW radW mW v).min_rmse < rmseVal avgW radW mW 1 := by
    intro h
    have h1 : (scanOf avgW radW mW v).min_rmse = 1 := by rw [c2]; exact rmseValW _
    have h2 : rmseVal avgW radW mW 1 = 1 := rmseValW 1
    rw [h1, h2] at h
    exact lt_irrefl _ h
  obtain ⟨hp, hpv, hmin⟩ := c7 hnlt
  refine ⟨hp, hpv, ?_⟩
  rw [hmin]
  exact rmseValW 1

/-- Helper: domain condition of the witness instance. -/
theorem hdW (v : ℝ) : rmse_defined avgW (gbW v) :=
  ⟨fun _ _ h => Option.noConfusion h, by simp [gbW, mW, totalCount]⟩

/-- Helper: domain condition of the diverging instance. -/
theorem hdD (v : ℝ) : rmse_defined avgD (gbD v) :=
  ⟨fun _ _ h => Option.noConfusion h, by simp [gbD, mD, totalCount]⟩

/-- Helper: on the witness instance predict returns without recursing, with
predicted volume equal to the starting volume and the structure left at 120
percent of it. -/
theorem predict_stepW (v : ℝ) :
    predict_step avgW radW gbW v =
      Except.ok (Sum.inl ⟨v, (120 : ℝ) * 0.01 * v, 1⟩) := by
  rw [predict_step_eq avgW radW gbW v (hdW v)]
  rw [show gbW v = mW from rfl]
  rw [(scanOfW_fields v).1]
  rw [if_neg (by norm_num)]
  rw [(scanOfW_fields v).2.1, (scanOfW_fields v).2.2, scanOf_vol avgW radW mW v]

/-- Helper: the diverging instance rmse is the cube root of the factor. -/
theorem rmseValD (vf : ℝ) (hvf : 0 ≤ vf) :
    rmseVal avgD radD mD vf = vf ^ ((1 : ℝ) / 3) := by
  have hb : build_vectors avgD radD vf mD =
      Except.ok ([vf ^ ((1 : ℝ) / 3)], [0], []) := by
    simp [build_vectors, avgD, mD]
  rw [rmseVal, get_rmse, hb]
  simp only [List.length_cons, List.length_nil, Nat.zero_add]
  norm_num
  rw [Real.sqrt_sq (Real.rpow_nonneg hvf _)]
  rfl

/-- Helper: on the diverging instance the rmse strictly increases with the
percentage, so the scan always selects 80. -/
theorem scanOfD_p (v : ℝ) : (scanOf avgD radD mD v).min_percentage = 80 := by
  obtain ⟨c1, c2, c3, c4, c5, c6, c7⟩ := scanOf_spec avgD radD mD v
  have hr : ∀ i : ℕ, rmseVal avgD radD mD ((i : ℝ) * 0.01) =
      ((i : ℝ) * 0.01) ^ ((1 : ℝ) / 3) :=
    fun i => rmseValD _ (by positivity)
  have h80 : (scanOf avgD radD mD v).min_rmse ≤
      rmseVal avgD radD mD (((80 : ℕ) : ℝ) * 0.01) := c4 80 (by decide)
  by_contra hne
  have hFp2 : 80 < (scanOf avgD radD mD v).min_percentage := by
    rcases c3 with hp | hp
    · have h100 : (scanOf avgD radD mD v).min_percentage = 100 := hp
      omega
    · have hm := List.mem_range'_1.mp hp
      omega
  have hcast : ((80 : ℕ) : ℝ) * 0.01 < ((scanOf avgD radD mD v).min_percentage : ℝ) * 0.01 := by
    have hc : ((80 : ℕ) : ℝ) < ((scanOf avgD radD mD v).min_percentage : ℝ) := by
      exact_mod_cast hFp2
    exact mul_lt_mul_of_pos_right hc (by norm_num)
  have hlt : rmseVal avgD radD mD (((80 : ℕ) : ℝ) * 0.01) <
      rmseVal avgD radD mD (((scanOf avgD radD mD v).min_percentage : ℝ) * 0.01) := by
    rw [hr 80, hr _]
    exact Real.rpow_lt_rpow (by norm_num) hcast (by norm_num)
  have hF : (scanOf avgD radD mD v).min_rmse =
      rmseVal avgD radD mD (((scanOf avgD radD mD v).min_percentage : ℝ) * 0.01) := by
    rw [c2]
  rw [hF] at h80
  exact absurd hlt (not_lt.mpr h80)

/-- Helper: on the diverging instance every predict invocation recurses,
leaving the structure at 120 percent of its volume. -/
theorem predict_stepD (v : ℝ) :
    predict_step avgD radD gbD v = Except.ok (Sum.inr ((120 : ℝ) * 0.01 * v)) := by
  rw [predict_step_eq avgD radD gbD v (hdD v)]
  rw [show gbD v = mD from rfl]
  rw [scanOfD_p v]
  rw [if_pos (Or.inl (by norm_num))]
  rw [scanOf_vol avgD radD mD v]

/-- Helper: on the diverging instance no amount of fuel produces a result:
the recursion of line 153 never terminates. -/
theorem divergeD : ∀ (n : ℕ) (v : ℝ), predictFuel avgD radD gbD n v = Except.ok none := by
  intro n
  induction n with
  | zero => intro v; rfl
  | succ k ih =>
      intro v
      rw [predictFuel, predict_stepD v]
      exact ih ((120 : ℝ) * 0.01 * v)

/-- C3 (confirmed): predict returns without recursing exactly when the best
scanned percentage lies in 85..115 (with 100 as best when nothing beats the
baseline); otherwise it re-invokes predict on the same structure object,
which has been left rescaled to the last scanned factor; and the recursion
has no depth bound: on a concrete instance whose rmse increases with the
factor, no fuel suffices to produce a result. -/
theorem predict_recursion_policy :
    (∀ (avg : String → Option ℝ) (radius : String → ℝ) (get_bls : ℝ → Minbls) (v : ℝ),
      rmse_defined avg (get_bls v) →
      ∀ F, F = scanOf avg radius (get_bls v) v →
        ((∃ res, predict_step avg radius get_bls v = Except.ok (Sum.inl res)) ↔
          85 ≤ F.min_percentage ∧ F.min_percentage ≤ 115) ∧
        (F.min_percentage < 85 ∨ 115 < F.min_percentage →
          predict_step avg radius get_bls v = Except.ok (Sum.inr ((120 : ℝ) * 0.01 * v)))) ∧
    (∀ (n : ℕ) (v2 : ℝ), predictFuel avgD radD gbD n v2 = Except.ok none) := by
  constructor
  · intro avg radius get_bls v hd F hF
    subst hF
    constructor
    · constructor
      · rintro ⟨res, hres⟩
        rw [predict_step_eq avg radius get_bls v hd] at hres
        by_cases hc : (scanOf avg radius (get_bls v) v).min_percentage < 85 ∨
            115 < (scanOf avg radius (get_bls v) v).min_percentage
        · rw [if_pos hc] at hres
          simp at hres
        · push_neg at hc
          exact hc
      · intro hb
        rw [predict_step_eq avg radius get_bls v hd]
        rw [if_neg (by omega)]
        exact ⟨_, rfl⟩
    · intro hc
      rw [predict_step_eq avg radius get_bls v hd, if_pos hc,
        scanOf_vol avg radius (get_bls v) v]
  · exact divergeD

/-- C3 (witness): on the constant-rmse instance predict returns without
recursing, and on the increasing-rmse instance three units of fuel (or any
other amount) yield no result. -/
theorem predict_recursion_policy_witness :
    (∃ res, predict_step avgW radW gbW 5 = Except.ok (Sum.inl res)) ∧
    predictFuel avgD radD gbD 3 7 = Except.ok none := by
  constructor
  · refine ((predict_recursion_policy.1 avgW radW gbW 5 (hdW 5)
        (scanOf avgW radW (gbW 5) 5) rfl).1).mpr ?_
    rw [show gbW 5 = mW from rfl, (scanOfW_fields 5).1]
    exact ⟨by norm_num, by norm_num⟩
  · exact predict_recursion_policy.2 3 7

/-- C2 (witness): on a concrete instance the scan bounds of the claim hold
with all hypotheses discharged. -/
theorem predict_scan_minimization_witness :
    80 ≤ (scanOf avgW radW (gbW 5) 5).min_percentage ∧
    (scanOf avgW radW (gbW 5) 5).min_percentage ≤ 120 :=
  ((predict_scan_minimization avgW radW gbW 5 (hdW 5)
    (scanOf avgW radW (gbW 5) 5) rfl).2.2.2.2.2).1

/-- C10 (confirmed): whenever predict returns without recursing, the
returned structure has been mutated in place to exactly 120 percent of its
starting volume (the last scanned factor), while the returned volume field
is best-percentage times the starting volume; since the best percentage of
a non-recursing return lies in 85..115 it is never 120, so the returned
structure volume always differs from the returned volume field. -/
theorem predict_returns_last_scanned_volume (avg : String → Option ℝ)
    (radius : String → ℝ) (get_bls : ℝ → Minbls) (v : ℝ)
    (hd : rmse_defined avg (get_bls v)) (hv : 0 < v) :
    ∀ res, predict_step avg radius get_bls v = Except.ok (Sum.inl res) →
      res.structureVolume = (120 : ℝ) * 0.01 * v ∧
      res.volume = ((scanOf avg radius (get_bls v) v).min_percentage : ℝ) * 0.01 * v ∧
      res.volume ≠ res.structureVolume := by
  intro res hres
  obtain ⟨c1, c2, c3, c4, c5, c6, c7⟩ := scanOf_spec avg radius (get_bls v) v
  rw [predict_step_eq avg radius get_bls v hd] at hres
  by_cases hc : (scanOf avg radius (get_bls v) v).min_percentage < 85 ∨
      115 < (scanOf avg radius (get_bls v) v).min_percentage
  · rw [if_pos hc] at hres
    simp at hres
  · rw [if_neg hc] at hres
    simp only [Except.ok.injEq, Sum.inl.injEq] at hres
    push_neg at hc
    have h1 : res.structureVolume = (scanOf avg radius (get_bls v) v).vol := by
      rw [← hres]
    have h2 : res.volume = (scanOf avg radius (get_bls v) v).predicted_volume := by
      rw [← hres]
    refine ⟨by rw [h1, scanOf_vol], by rw [h2, c1], ?_⟩
    rw [h1, h2, scanOf_vol avg radius (get_bls v) v, c1]
    intro heq
    have h001 : (0 : ℝ) < 0.01 * v := mul_pos (by norm_num) hv
    have hps : ((scanOf avg radius (get_bls v) v).min_percentage : ℝ) = 120 := by
      rw [mul_assoc, mul_assoc] at heq
      exact mul_right_cancel₀ (ne_of_gt h001) heq
    have hp120 : (scanOf avg radius (get_bls v) v).min_percentage = 120 := by
      exact_mod_cast hps
    omega

/-- C10 (witness): on the constant-rmse instance with starting volume 5, the
returned structure volume is 6 while the returned volume field is 5. -/
theorem predict_returns_last_scanned_volume_witness :
    (⟨5, (120 : ℝ) * 0.01 * 5, 1⟩ : prediction_results).structureVolume =
      (120 : ℝ) * 0.01 * 5 ∧
    (⟨5, (120 : ℝ) * 0.01 * 5, 1⟩ : prediction_results).volume =
      ((scanOf avgW radW (gbW 5) 5).min_percentage : ℝ) * 0.01 * 5 ∧
    (⟨5, (120 : ℝ) * 0.01 * 5, 1⟩ : prediction_results).volume ≠
      (⟨5, (120 : ℝ) * 0.01 * 5, 1⟩ : prediction_results).structureVolume :=
  predict_returns_last_scanned_volume avgW radW gbW 5 (hdW 5) (by norm_num)
    ⟨5, (120 : ℝ) * 0.01 * 5, 1⟩ (predict_stepW 5)

/-- Helper: with a neighbor oracle that never finds anything, the escalation
ends with an empty neighbor list, whatever the fuel and the cutoff. -/
theorem escalateF_found_empty (mx : ℝ) :
    ∀ (n : ℕ) (c : ℝ), (escalateF (fun _ => []) mx n [] c).found = [] := by
  intro n
  induction n with
  | zero => intro c; rfl
  | succ k ih =>
      intro c
      rw [escalateF]
      by_cases hg : ([] : List (PElement × ℝ)) = [] ∧ c ≤ mx
      · rw [if_pos hg]
        exact ih (c * 2)
      · rw [if_neg hg]

/-- Helper: the nested smallest-distance fold of predict equals the flat
fold of updateSd over all examined ratios. -/
theorem sd_fold_flat (nbrs : ℕ → ℝ → List (PElement × ℝ)) (cfg : SimpleCfg) (fuel : ℕ) :
    ∀ (L : List (ℕ × PElement)) (sd : Option ℝ),
      L.foldl (fun sd p =>
        ((escalateF (nbrs p.1) cfg.max_cutoff fuel [] cfg.cutoff).found).foldl
          (fun sd q =>
            updateSd sd (q.2 / (blendRadius p.2 cfg.ionic_mix + blendRadius q.1 cfg.ionic_mix)))
          sd) sd
      = (L.flatMap (fun p =>
          ((escalateF (nbrs p.1) cfg.max_cutoff fuel [] cfg.cutoff).found).map
            (fun q => q.2 / (blendRadius p.2 cfg.ionic_mix + blendRadius q.1 cfg.ionic_mix)))).foldl
          updateSd sd := by
  intro L
  induction L with
  | nil => intro sd; rfl
  | cons p t ih =>
      intro sd
      rw [List.foldl_cons, List.flatMap_cons, List.foldl_append, List.foldl_map]
      exact ih _

/-- C6 (confirmed): VolumePredictorSimple.predict raises ValueError for any
structure with a disordered site before any neighbor search happens (the
result does not depend on the neighbor oracle, the configuration or the
fuel), and raises ValueError when the cutoff escalation finds no neighbor
pair for any site. -/
theorem simple_predict_validation_errors :
    (∀ (nbrs nbrs2 : ℕ → ℝ → List (PElement × ℝ)) (cfg cfg2 : SimpleCfg)
        (fuel fuel2 : ℕ) (s : SimpleStructure), s.is_ordered = false →
      predict_core nbrs cfg fuel s =
        Except.error ("VolumePredictorSimple only works with ordered structures!") ∧
      predict_core nbrs cfg fuel s = predict_core nbrs2 cfg2 fuel2 s) ∧
    (∀ (nbrs : ℕ → ℝ → List (PElement × ℝ)) (cfg : SimpleCfg) (fuel : ℕ)
        (s : SimpleStructure), s.is_ordered = true →
      (∀ i, (escalateF (nbrs i) cfg.max_cutoff fuel [] cfg.cutoff).found = []) →
      predict_core nbrs cfg fuel s =
        Except.error ("Could not find any appropriate bonds in this material; ensure structure validity or increase max_cutoff!")) := by
  constructor
  · intro nbrs nbrs2 cfg cfg2 fuel fuel2 s hord
    constructor
    · rw [predict_core, if_pos hord]
    · rw [predict_core, if_pos hord, predict_core, if_pos hord]
  · intro nbrs cfg fuel s hord hfound
    rw [predict_core, if_neg (by rw [hord]; exact fun h => Bool.noConfusion h)]
    rw [sd_fold_flat]
    have hflat : s.sites.enum.flatMap (fun p =>
        ((escalateF (nbrs p.1) cfg.max_cutoff fuel [] cfg.cutoff).found).map
          (fun q => q.2 / (blendRadius p.2 cfg.ionic_mix + blendRadius q.1 cfg.ionic_mix))) = [] := by
      rw [List.flatMap_eq_nil_iff]
      intro p _
      rw [hfound p.1]
      rfl
    rw [hflat]
    rfl

/-- C6 (witness): a concrete disordered structure raises the ordered-only
error, and a concrete ordered structure with a never-finding neighbor
oracle raises the no-bonds error. -/
theorem simple_predict_validation_errors_witness :
    sUnordered.is_ordered = false ∧
    predict_core nEmpty cfg0 5 sUnordered =
      Except.error ("VolumePredictorSimple only works with ordered structures!") ∧
    sLonely.is_ordered = true ∧
    predict_core nEmpty cfg0 5 sLonely =
      Except.error ("Could not find any appropriate bonds in this material; ensure structure validity or increase max_cutoff!") :=
  ⟨rfl,
   (simple_predict_validation_errors.1 nEmpty nEmpty cfg0 cfg0 5 5 sUnordered rfl).1,
   rfl,
   simple_predict_validation_errors.2 nEmpty cfg0 5 sLonely rfl
     (fun _ => escalateF_found_empty cfg0.max_cutoff 5 cfg0.cutoff)⟩

/-- Helper: folding updateSd from a positive seed over positive ratios
computes exactly the running minimum (no Python-falsiness reset occurs). -/
theorem updateSd_fold_pos :
    ∀ (L : List ℝ) (a : ℝ), 0 < a → (∀ x ∈ L, 0 < x) →
      L.foldl updateSd (some a) = some (L.foldl min a) := by
  intro L
  induction L with
  | nil => intro a _ _; rfl
  | cons x xs ih =>
      intro a ha hx
      have hxa : updateSd (some a) x = some (min a x) := by
        rw [updateSd, if_neg (ne_of_gt ha)]
        rcases lt_or_ge x a with h | h
        · rw [if_pos h, min_eq_right (le_of_lt h)]
        · rw [if_neg (not_lt.mpr h), min_eq_left h]
      rw [List.foldl_cons, List.foldl_cons, hxa]
      exact ih (min a x) (lt_min ha (hx x (List.mem_cons_self _ _)))
        (fun y hy => hx y (List.mem_cons_of_mem _ hy))

/-- Helper: the running minimum of positive values is positive. -/
theorem foldl_min_pos :
    ∀ (L : List ℝ) (a : ℝ), 0 < a → (∀ x ∈ L, 0 < x) → 0 < L.foldl min a := by
  intro L
  induction L with
  | nil => intro a ha _; exact ha
  | cons x xs ih =>
      intro a ha hx
      rw [List.foldl_cons]
      exact ih (min a x) (lt_min ha (hx x (List.mem_cons_self _ _)))
        (fun y hy => hx y (List.mem_cons_of_mem _ hy))

/-- Helper: the running minimum is a lower bound of the seed and of every
element. -/
theorem foldl_min_le :
    ∀ (L : List ℝ) (a : ℝ), L.foldl min a ≤ a ∧ ∀ x ∈ L, L.foldl min a ≤ x := by
  intro L
  induction L with
  | nil => intro a; exact ⟨le_refl a, by simp⟩
  | cons x xs ih =>
      intro a
      rw [List.foldl_cons]
      refine ⟨le_trans (ih (min a x)).1 (min_le_left a x), ?_⟩
      intro y hy
      rcases List.mem_cons.mp hy with h | h
      · rw [h]; exact le_trans (ih (min a x)).1 (min_le_right a x)
      · exact (ih (min a x)).2 y h

/-- C7 (amended): provided the structure is ordered and every examined
ratio actual/expected is positive (in particular no coincident neighbor at
distance 0), the applied volume scale factor is exactly (1/minRatio)^3 for
minRatio the minimum examined ratio, and a minRatio of 1 leaves the volume
unchanged. -/
theorem simple_predict_scale_factor (nbrs : ℕ → ℝ → List (PElement × ℝ))
    (cfg : SimpleCfg) (fuel : ℕ) (s : SimpleStructure)
    (hord : s.is_ordered = true)
    (hne : allRatios nbrs cfg fuel s ≠ [])
    (hpos : ∀ x ∈ allRatios nbrs cfg fuel s, 0 < x) :
    predict_core nbrs cfg fuel s =
      Except.ok ⟨s.sites, s.volume * (1 / ratioMin nbrs cfg fuel s) ^ (3 : ℕ),
        s.is_ordered⟩ ∧
    0 < ratioMin nbrs cfg fuel s ∧
    (∀ x ∈ allRatios nbrs cfg fuel s, ratioMin nbrs cfg fuel s ≤ x) ∧
    (ratioMin nbrs cfg fuel s = 1 →
      ∀ s2, predict_core nbrs cfg fuel s = Except.ok s2 → s2.volume = s.volume) := by
  cases hall : allRatios nbrs cfg fuel s with
  | nil => exact absurd hall hne
  | cons x xs =>
      have hx : 0 < x := hpos x (by rw [hall]; exact List.mem_cons_self _ _)
      have hxs : ∀ y ∈ xs, 0 < y := fun y hy =>
        hpos y (by rw [hall]; exact List.mem_cons_of_mem _ hy)
      have hmin : ratioMin nbrs cfg fuel s = xs.foldl min x := by
        rw [ratioMin, hall]
      have hminpos : 0 < ratioMin nbrs cfg fuel s := by
        rw [hmin]; exact foldl_min_pos xs x hx hxs
      have hcore : predict_core nbrs cfg fuel s =
          Except.ok ⟨s.sites, s.volume * (1 / ratioMin nbrs cfg fuel s) ^ (3 : ℕ),
            s.is_ordered⟩ := by
        rw [predict_core, if_neg (by rw [hord]; exact fun h => Bool.noConfusion h)]
        rw [sd_fold_flat]
        have hall2 : (s.sites.enum.flatMap fun p =>
            ((escalateF (nbrs p.1) cfg.max_cutoff fuel [] cfg.cutoff).found).map
              (fun q => q.2 / (blendRadius p.2 cfg.ionic_mix + blendRadius q.1 cfg.ionic_mix)))
            = x :: xs := hall
        rw [hall2]
        have hfold : List.foldl updateSd none (x :: xs) =
            some (ratioMin nbrs cfg fuel s) := by
          rw [List.foldl_cons, show updateSd none x = some x from rfl,
            updateSd_fold_pos xs x hx hxs, hmin]
        rw [hfold]
        simp [ne_of_gt hminpos]
      refine ⟨hcore, hminpos, ?_, ?_⟩
      · intro y hy
        rcases List.mem_cons.mp hy with h | h
        · rw [h, hmin]; exact (foldl_min_le xs x).1
        · rw [hmin]; exact (foldl_min_le xs x).2 y h
      · intro h1 s2 h2
        rw [hcore] at h2
        simp only [Except.ok.injEq] at h2
        rw [← h2, h1]
        norm_num

/-- C7 (counterexample): with a coincident neighbor (distance 0, ratio 0)
followed by a ratio-3 neighbor, Python truthiness treats the stored 0.0 as
unset, the tracked minimum ends at 3 instead of 0, and predict succeeds
with volume 27 * (1/3)^3 = 1; the claimed formula with minRatio = 0 gives
volume 0 instead, refuting the claim as stated. -/
theorem simple_predict_scale_factor_cex :
    sC7.is_ordered = true ∧
    allRatios nC7 cfg0 1 sC7 = [0, 3] ∧
    ratioMin nC7 cfg0 1 sC7 = 0 ∧
    predict_core nC7 cfg0 1 sC7 = Except.ok ⟨[eC7], 1, true⟩ ∧
    sC7.volume * (1 / ratioMin nC7 cfg0 1 sC7) ^ (3 : ℕ) = 0 ∧
    ((1 : ℝ) ≠ 0) := by
  have hall : allRatios nC7 cfg0 1 sC7 = [0, 3] := by
    norm_num [allRatios, nC7, cfg0, sC7, eC7, escalateF, blendRadius, List.enum]
  have hmin : ratioMin nC7 cfg0 1 sC7 = 0 := by
    rw [ratioMin, hall]
    norm_num
  refine ⟨rfl, hall, hmin, ?_, ?_, by norm_num⟩
  · norm_num [predict_core, nC7, cfg0, sC7, eC7, escalateF, blendRadius, updateSd, List.enum]
  · rw [hmin]
    norm_num

/-- C7 (witness for the amended claim): one neighbor exactly at the
expected touching distance gives minRatio 1 and an unchanged volume. -/
theorem simple_predict_scale_factor_witness :
    predict_core nTouch cfg0 1 sC7 =
      Except.ok ⟨sC7.sites, sC7.volume * (1 / ratioMin nTouch cfg0 1 sC7) ^ (3 : ℕ),
        sC7.is_ordered⟩ ∧
    0 < ratioMin nTouch cfg0 1 sC7 ∧
    (∀ x ∈ allRatios nTouch cfg0 1 sC7, ratioMin nTouch cfg0 1 sC7 ≤ x) ∧
    (ratioMin nTouch cfg0 1 sC7 = 1 →
      ∀ s2, predict_core nTouch cfg0 1 sC7 = Except.ok s2 → s2.volume = sC7.volume) := by
  have hall : allRatios nTouch cfg0 1 sC7 = [1] := by
    norm_num [allRatios, nTouch, cfg0, sC7, eC7, escalateF, blendRadius, List.enum]
  exact simple_predict_scale_factor nTouch cfg0 1 sC7 rfl
    (by rw [hall]; exact List.cons_ne_nil _ _)
    (by rw [hall]; intro x hx; rw [List.mem_singleton.mp hx]; norm_num)

/-- Helper: a successful predict keeps sites and ordering and rescales the
volume by (1/sd)^3 for some nonzero tracked ratio sd. -/
theorem predict_core_ok_shape (nbrs : ℕ → ℝ → List (PElement × ℝ)) (cfg : SimpleCfg)
    (fuel : ℕ) (s s2 : SimpleStructure)
    (h : predict_core nbrs cfg fuel s = Except.ok s2) :
    s2.sites = s.sites ∧ s2.is_ordered = s.is_ordered ∧
    ∃ sd, sd ≠ 0 ∧ s2.volume = s.volume * (1 / sd) ^ (3 : ℕ) := by
  rw [predict_core] at h
  split at h
  · exact Except.noConfusion h
  · split at h
    · exact Except.noConfusion h
    · rename_i v hsd
      split at h
      · exact Except.noConfusion h
      · rename_i hv
        simp only [Except.ok.injEq] at h
        rw [← h]
        exact ⟨rfl, rfl, v, hv, rfl⟩

/-- C8 (confirmed): predict never mutates its input: on success it returns
a fresh reference distinct from the input reference; the store entry of the
input (its sites, volume and ordering) is unchanged, every other entry is
unchanged, and the fresh entry is a copy with the same sites and ordering
and a rescaled volume. -/
theorem simple_predict_no_mutation (nbrs : ℕ → ℝ → List (PElement × ℝ))
    (cfg : SimpleCfg) (fuel : ℕ) (r : ℕ) (st : List SimpleStructure)
    (r2 : ℕ) (st2 : List SimpleStructure)
    (h : predictS nbrs cfg fuel r st = Except.ok (r2, st2)) :
    r2 = st.length ∧ r < st.length ∧ r2 ≠ r ∧
    st2.get? r = st.get? r ∧
    (∀ q, q ≠ r2 → st2.get? q = st.get? q) ∧
    ∃ s s2, st.get? r = some s ∧ st2.get? r2 = some s2 ∧
      predict_core nbrs cfg fuel s = Except.ok s2 ∧
      s2.sites = s.sites ∧ s2.is_ordered = s.is_ordered ∧
      ∃ sd, sd ≠ 0 ∧ s2.volume = s.volume * (1 / sd) ^ (3 : ℕ) := by
  rw [predictS] at h
  split at h
  · exact Except.noConfusion h
  · rename_i s hget
    split at h
    · exact Except.noConfusion h
    · rename_i s2 hcore
      simp only [Except.ok.injEq, Prod.mk.injEq] at h
      obtain ⟨hr2, hst2⟩ := h
      have hrlt : r < st.length := by
        rcases List.get?_eq_some.mp hget with ⟨hlt, _⟩
        exact hlt
      obtain ⟨hsites, hord2, sd, hsd, hvol⟩ :=
        predict_core_ok_shape nbrs cfg fuel s s2 hcore
      refine ⟨hr2.symm, hrlt, ?_, ?_, ?_, s, s2, hget, ?_, hcore, hsites, hord2,
        sd, hsd, hvol⟩
      · rw [← hr2]; omega
      · rw [← hst2]
        exact List.get?_append hrlt
      · intro q hq
        rw [← hst2]
        by_cases hql : q < st.length
        · exact List.get?_append hql
        · have h1 : st.get? q = none := List.get?_eq_none.mpr (by omega)
          have h2 : (st ++ [s2]).get? q = none := by
            apply List.get?_eq_none.mpr
            rw [List.length_append, List.length_singleton]
            rw [← hr2] at hq
            omega
          rw [h1, h2]
      · rw [← hst2, ← hr2]
        exact List.get?_concat_length st s2

/-- C8 (witness): a concrete successful run on a one-structure store: the
result reference 1 is fresh, entry 0 is untouched, and the copy at entry 1
has the same sites with the volume rescaled by ratio 1. -/
theorem simple_predict_no_mutation_witness :
    (1 : ℕ) = [sC7].length ∧ 0 < [sC7].length ∧ (1 : ℕ) ≠ 0 ∧
    [sC7, sOut].get? 0 = [sC7].get? 0 ∧
    (∀ q, q ≠ 1 → [sC7, sOut].get? q = [sC7].get? q) ∧
    ∃ s s2, [sC7].get? 0 = some s ∧ [sC7, sOut].get? 1 = some s2 ∧
      predict_core nTouch cfg0 1 s = Except.ok s2 ∧
      s2.sites = s.sites ∧ s2.is_ordered = s.is_ordered ∧
      ∃ sd, sd ≠ 0 ∧ s2.volume = s.volume * (1 / sd) ^ (3 : ℕ) :=
  simple_predict_no_mutation nTouch cfg0 1 0 [sC7] 1 [sC7, sOut] (by
    norm_num [predictS, predict_core, nTouch, cfg0, sC7, sOut, eC7,
      escalateF, blendRadius, updateSd, List.enum])

/-- Helper: when the loop body ran at least once, the last search happened
at radius cutoff * 2^(iters - 1), which was still within max_cutoff. -/
theorem escalateF_iters_le (nbrs : ℝ → List (PElement × ℝ)) (mx : ℝ) :
    ∀ (n : ℕ) (x : List (PElement × ℝ)) (c : ℝ),
      (escalateF nbrs mx n x c).iters = 0 ∨
        c * 2 ^ ((escalateF nbrs mx n x c).iters - 1) ≤ mx := by
  intro n
  induction n with
  | zero => intro x c; exact Or.inl rfl
  | succ k ih =>
      intro x c
      by_cases hg : x = [] ∧ c ≤ mx
      · rw [escalateF, if_pos hg]
        refine Or.inr ?_
        simp only [Nat.add_sub_cancel]
        rcases ih (nbrs c) (c * 2) with h0 | hle
        · rw [h0, pow_zero, mul_one]
          exact hg.2
        · cases hit : (escalateF nbrs mx k (nbrs c) (c * 2)).iters with
          | zero =>
              rw [pow_zero, mul_one]
              exact hg.2
          | succ j =>
              rw [hit] at hle
              have he : c * 2 ^ (j + 1) = c * 2 * 2 ^ j := by ring
              rw [he]
              simpa using hle
      · rw [escalateF, if_neg hg]
        exact Or.inl rfl

/-- Helper: every radius passed to the neighbor search stays within
max_cutoff. -/
theorem escalateF_radii_le (nbrs : ℝ → List (PElement × ℝ)) (mx : ℝ) :
    ∀ (n : ℕ) (x : List (PElement × ℝ)) (c : ℝ),
      ∀ rad ∈ (escalateF nbrs mx n x c).radii, rad ≤ mx := by
  intro n
  induction n with
  | zero => intro x c rad hrad; simp [escalateF] at hrad
  | succ k ih =>
      intro x c rad hrad
      by_cases hg : x = [] ∧ c ≤ mx
      · rw [escalateF, if_pos hg] at hrad
        simp only [List.mem_cons] at hrad
        rcases hrad with h | h
        · rw [h]; exact hg.2
        · exact ih (nbrs c) (c * 2) rad h
      · rw [escalateF, if_neg hg] at hrad
        simp at hrad

/-- Helper: once the fuel covers the doublings needed to outgrow
max_cutoff, adding fuel does not change the loop result: the loop has
terminated. -/
theorem escalateF_stable (nbrs : ℝ → List (PElement × ℝ)) (mx : ℝ) :
    ∀ (n : ℕ) (x : List (PElement × ℝ)) (c : ℝ), mx < c * 2 ^ n →
      escalateF nbrs mx n x c = escalateF nbrs mx (n + 1) x c := by
  intro n
  induction n with
  | zero =>
      intro x c h
      rw [pow_zero, mul_one] at h
      rw [escalateF, escalateF]
      rw [if_neg (fun hg => absurd hg.2 (not_le.mpr h))]
  | succ k ih =>
      intro x c h
      by_cases hg : x = [] ∧ c ≤ mx
      · rw [escalateF, if_pos hg]
        conv_rhs => rw [escalateF, if_pos hg]
        rw [← ih (nbrs c) (c * 2)
          (by rw [show c * 2 * 2 ^ k = c * 2 ^ (k + 1) from by ring]; exact h)]
      · rw [escalateF, if_neg hg]
        conv_rhs => rw [escalateF, if_neg hg]

/-- C9 (counterexample): with the default cutoff 8 and max_cutoff 32 and a
site with no neighbors, the loop body executes 3 times (radii 8, 16, 32),
exceeding the claimed bound log2(32/8) = 2. -/
theorem cutoff_loop_bound_cex :
    (escalateF (fun _ => ([] : List (PElement × ℝ))) 32 10 [] 8).iters = 3 ∧
    ¬ (((escalateF (fun _ => ([] : List (PElement × ℝ))) 32 10 [] 8).iters : ℝ) ≤
        Real.logb 2 ((32 : ℝ) / 8)) := by
  have h3 : (escalateF (fun _ => ([] : List (PElement × ℝ))) 32 10 [] 8).iters = 3 := by
    norm_num [escalateF]
  refine ⟨h3, ?_⟩
  rw [h3]
  have hlogb : Real.logb 2 ((32 : ℝ) / 8) = 2 := by
    have h4 : ((32 : ℝ) / 8) = 2 ^ (2 : ℕ) := by norm_num
    rw [h4, Real.logb, Real.log_pow]
    rw [mul_div_assoc, div_self (ne_of_gt (Real.log_pos one_lt_two))]
    norm_num
  rw [hlogb]
  norm_num

/-- C9 (amended): the cutoff-doubling loop terminates; when cutoff is at
most max_cutoff it executes at most log2(maxCutoff/cutoff) + 1 iterations
(one more than the claimed bound), it executes none at all when cutoff
exceeds max_cutoff, and it never searches with a radius greater than
max_cutoff. -/
theorem cutoff_loop_bound (nbrs : ℝ → List (PElement × ℝ)) (mx c : ℝ) (hc : 0 < c) :
    (∀ (n : ℕ) (x : List (PElement × ℝ)), c ≤ mx →
      ((escalateF nbrs mx n x c).iters : ℝ) ≤ Real.logb 2 (mx / c) + 1) ∧
    (∀ (n : ℕ) (x : List (PElement × ℝ)), mx < c → (escalateF nbrs mx n x c).iters = 0) ∧
    (∀ (n : ℕ) (x : List (PElement × ℝ)),
      ∀ rad ∈ (escalateF nbrs mx n x c).radii, rad ≤ mx) ∧
    (∃ n, escalateF nbrs mx n [] c = escalateF nbrs mx (n + 1) [] c) := by
  refine ⟨?_, ?_, fun n x => escalateF_radii_le nbrs mx n x c, ?_⟩
  · intro n x hcm
    have hlog0 : 0 ≤ Real.logb 2 (mx / c) :=
      Real.logb_nonneg one_lt_two ((one_le_div hc).mpr hcm)
    rcases escalateF_iters_le nbrs mx n x c with h0 | hle
    · rw [h0]
      push_cast
      linarith
    · cases hit : (escalateF nbrs mx n x c).iters with
      | zero =>
          push_cast
          linarith
      | succ j =>
          rw [hit] at hle
          have hj : (2 : ℝ) ^ (j : ℕ) ≤ mx / c := by
            rw [le_div_iff hc]
            calc (2 : ℝ) ^ (j : ℕ) * c = c * 2 ^ (j + 1 - 1) := by
                  rw [Nat.add_sub_cancel, mul_comm]
              _ ≤ mx := hle
          have hjl : (j : ℝ) ≤ Real.logb 2 (mx / c) := by
            rw [Real.le_logb_iff_rpow_le one_lt_two
              (lt_of_lt_of_le (by positivity) hj)]
            rw [Real.rpow_natCast]
            exact hj
          push_cast
          linarith
  · intro n x hmc
    cases n with
    | zero => rfl
    | succ k =>
        rw [escalateF, if_neg (fun hg => absurd hg.2 (not_le.mpr hmc))]
  · obtain ⟨n, hn⟩ := pow_unbounded_of_one_lt (mx / c) (by norm_num : (1 : ℝ) < 2)
    refine ⟨n, escalateF_stable nbrs mx n [] c ?_⟩
    rw [div_lt_iff hc] at hn
    rw [mul_comm]
    exact hn

/-- C9 (witness for the amended claim): at the default configuration the
no-neighbor escalation performs 3 iterations, within log2(32/8) + 1 = 3,
and the loop terminates. -/
theorem cutoff_loop_bound_witness :
    (((escalateF (fun _ => ([] : List (PElement × ℝ))) 32 10 [] 8).iters : ℝ) ≤
      Real.logb 2 ((32 : ℝ) / 8) + 1) ∧
    (∃ n, escalateF (fun _ => ([] : List (PElement × ℝ))) 32 n [] 8 =
      escalateF (fun _ => ([] : List (PElement × ℝ))) 32 (n + 1) [] 8) :=
  ⟨(cutoff_loop_bound (fun _ => ([] : List (PElement × ℝ))) 32 8 (by norm_num)).1 10 []
    (by norm_num),
   (cutoff_loop_bound (fun _ => ([] : List (PElement × ℝ))) 32 8 (by norm_num)).2.2.2⟩

end VolPred
